import Mathlib

/-!
Verification of the task scheduler in `ansible/files/scheduler.py`
(prometheus-virtfs-exporter-charm).

Python `datetime` values are embedded as a natural number of microseconds
since `datetime.min` (0001-01-01 00:00:00).  A `timedelta` between two such
values is a microsecond difference; its Python `.seconds` attribute is the
seconds-within-day component of the normalized triple, i.e.
`(diff / 10^6) % 86400` for a non-negative difference.
-/

def usPerSec : Nat := 1000000

def secPerDay : Nat := 86400

/-- Python `datetime.microsecond` of an embedded datetime. -/
def dtMicrosecond (t : Nat) : Nat := t % usPerSec

/-- Whole seconds since midnight of the embedded datetime: the `.seconds`
attribute of the timedelta `usedate - datetime.min` in the source. -/
def dtSeconds (t : Nat) : Nat := (t / usPerSec) % secPerDay

/-- Midnight of the embedded datetime's day, in microseconds. -/
def dtMidnight (t : Nat) : Nat := t / (secPerDay * usPerSec) * (secPerDay * usPerSec)

/-- Python `datetime.replace(microsecond=0)`. -/
def truncMicros (t : Nat) : Nat := t - t % usPerSec

/-- The scheduler's recurrence units: "second", "minute", "hour", "day". -/
inductive TimeUnit
  | second
  | minute
  | hour
  | day
deriving DecidableEq, Repr

/-- `int(timedelta(**{unit+"s": 1}).total_seconds())` for each unit. -/
def unitSeconds : TimeUnit → Nat
  | TimeUnit.second => 1
  | TimeUnit.minute => 60
  | TimeUnit.hour => 3600
  | TimeUnit.day => 86400

/-- `Scheduler.round_up_time(usedate, unit, round, delay)` from
`scheduler.py` lines 180-197, with `delay` already resolved to whole
seconds (`__process_delay`):

    delta = int(timedelta(**{unit+"s": round}).total_seconds())
    seconds = (usedate - usedate.min).seconds
    rounding = (seconds + delta) // delta * delta
    delay = delay if delay < delta else 0
    return usedate + timedelta(0, rounding - seconds + delay, -usedate.microsecond)
-/
def round_up_time (usedate : Nat) (unit : TimeUnit) (round delay : Nat) : Nat :=
  let delta := round * unitSeconds unit
  let seconds := dtSeconds usedate
  let rounding := (seconds + delta) / delta * delta
  let delay2 := if delay < delta then delay else 0
  usedate + (rounding - seconds + delay2) * usPerSec - dtMicrosecond usedate

/-- Ceiling division on naturals. -/
def ceilDiv (a b : Nat) : Nat := (a + b - 1) / b

/-- Modelled from the spec's words (§4.1), for comparison with
`round_up_time`: `window = round * unit_seconds`; `elapsed` = seconds since
midnight; `boundary = ceil((elapsed + window) / window) * window`; clamp
`delay` to 0 when `delay >= window`; result is midnight + boundary + delay
in whole seconds. -/
def spec_round_up_time (usedate : Nat) (unit : TimeUnit) (round delay : Nat) : Nat :=
  let window := round * unitSeconds unit
  let elapsed := dtSeconds usedate
  let boundary := ceilDiv (elapsed + window) window * window
  let delay2 := if delay < window then delay else 0
  dtMidnight usedate + (boundary + delay2) * usPerSec

lemma unitSeconds_pos (u : TimeUnit) : 0 < unitSeconds u := by
  cases u <;> simp [unitSeconds]

/-- An embedded datetime decomposes into its midnight, its whole seconds
since midnight, and its microsecond. -/
lemma dt_decomp (t : Nat) :
    t = dtMidnight t + dtSeconds t * usPerSec + dtMicrosecond t := by
  unfold dtMidnight dtSeconds dtMicrosecond usPerSec secPerDay
  omega

/-- Closed form of `round_up_time` for a positive round: midnight plus the
floor-rounded boundary plus the clamped delay, in whole seconds. -/
lemma round_up_time_eq (t : Nat) (u : TimeUnit) (r d : Nat) (hr : 1 ≤ r) :
    round_up_time t u r d =
      dtMidnight t +
        ((dtSeconds t + r * unitSeconds u) / (r * unitSeconds u) * (r * unitSeconds u)
          + (if d < r * unitSeconds u then d else 0)) * usPerSec := by
  have hw : 0 < r * unitSeconds u :=
    Nat.mul_pos (by omega) (unitSeconds_pos u)
  show t + ((dtSeconds t + r * unitSeconds u) / (r * unitSeconds u) * (r * unitSeconds u)
        - dtSeconds t + (if d < r * unitSeconds u then d else 0)) * usPerSec
      - dtMicrosecond t =
    dtMidnight t +
      ((dtSeconds t + r * unitSeconds u) / (r * unitSeconds u) * (r * unitSeconds u)
        + (if d < r * unitSeconds u then d else 0)) * usPerSec
  set w := r * unitSeconds u with hwdef
  set s := dtSeconds t with hsdef
  set R := (s + w) / w * w with hRdef
  have hR2 : R = w * ((s + w) / w) := Nat.mul_comm _ _
  have hdm := Nat.div_add_mod (s + w) w
  have hmlt : (s + w) % w < w := Nat.mod_lt _ hw
  have hsR : s + 1 ≤ R := by omega
  have hdec := dt_decomp t
  have hmic : dtMicrosecond t < usPerSec := by
    unfold dtMicrosecond
    exact Nat.mod_lt _ (by norm_num [usPerSec])
  rw [← hsdef] at hdec
  set d2 := if d < w then d else 0 with hd2def
  set m := dtMicrosecond t
  set M := dtMidnight t
  clear_value R d2 m M
  simp only [usPerSec] at hdec hmic ⊢
  omega

/-- C2: the claimed boundary formula uses `ceil((elapsed+window)/window)`,
but the source computes `(seconds + delta) // delta * delta`, a floor.  At
00:00:17 with unit=minute, round=1, delay=0 the source yields 00:01:00
while the claimed formula yields 00:02:00, one window later. -/
theorem round_up_ceil_counterexample :
    round_up_time 17000000 TimeUnit.minute 1 0 = 60000000 ∧
    spec_round_up_time 17000000 TimeUnit.minute 1 0 = 120000000 ∧
    round_up_time 17000000 TimeUnit.minute 1 0 ≠
      spec_round_up_time 17000000 TimeUnit.minute 1 0 := by
  refine ⟨by decide, by decide, by decide⟩

/-- C2 (amended): for every datetime, unit, positive round and delay, the
next-run computation uses `window = round * unit_seconds` and
`elapsed` = seconds since midnight, the boundary is the FLOOR form
`((elapsed + window) / window) * window` (one window past the last boundary
at or before `elapsed`), delay is clamped to 0 when `delay >= window`, and
the result is midnight plus boundary plus delay in whole seconds. -/
theorem round_up_time_algorithm (t : Nat) (u : TimeUnit) (r d : Nat) (hr : 1 ≤ r) :
    round_up_time t u r d =
      dtMidnight t +
        ((dtSeconds t + r * unitSeconds u) / (r * unitSeconds u) * (r * unitSeconds u)
          + (if d < r * unitSeconds u then d else 0)) * usPerSec :=
  round_up_time_eq t u r d hr

/-- Witness for `round_up_time_algorithm` at 00:00:17, unit=minute,
round=1, delay=5. -/
theorem round_up_time_algorithm_witness :
    round_up_time 17000000 TimeUnit.minute 1 5 =
      dtMidnight 17000000 +
        ((dtSeconds 17000000 + 1 * unitSeconds TimeUnit.minute)
            / (1 * unitSeconds TimeUnit.minute) * (1 * unitSeconds TimeUnit.minute)
          + (if 5 < 1 * unitSeconds TimeUnit.minute then 5 else 0)) * usPerSec :=
  round_up_time_algorithm 17000000 TimeUnit.minute 1 5 (by decide)

/-- C3: with a positive round and `delay < window`, the computed next run
is strictly after `now` and equals midnight plus a positive multiple of the
window plus exactly the delay, in whole seconds. -/
theorem round_up_time_aligned (t : Nat) (u : TimeUnit) (r d : Nat)
    (hr : 1 ≤ r) (hd : d < r * unitSeconds u) :
    t < round_up_time t u r d ∧
      round_up_time t u r d =
        dtMidnight t +
          ((dtSeconds t / (r * unitSeconds u) + 1) * (r * unitSeconds u) + d) * usPerSec := by
  have hw : 0 < r * unitSeconds u :=
    Nat.mul_pos (by omega) (unitSeconds_pos u)
  have heq := round_up_time_eq t u r d hr
  rw [if_pos hd] at heq
  have hfl : (dtSeconds t + r * unitSeconds u) / (r * unitSeconds u)
      = dtSeconds t / (r * unitSeconds u) + 1 := Nat.add_div_right _ hw
  rw [hfl] at heq
  refine ⟨?_, heq⟩
  have hdec := dt_decomp t
  have hmic : dtMicrosecond t < usPerSec := Nat.mod_lt _ (by norm_num [usPerSec])
  have hsb : dtSeconds t + 1 ≤ (dtSeconds t / (r * unitSeconds u) + 1) * (r * unitSeconds u) := by
    have hdm := Nat.div_add_mod (dtSeconds t) (r * unitSeconds u)
    have hml : dtSeconds t % (r * unitSeconds u) < r * unitSeconds u := Nat.mod_lt _ hw
    have hexp : (dtSeconds t / (r * unitSeconds u) + 1) * (r * unitSeconds u)
        = (r * unitSeconds u) * (dtSeconds t / (r * unitSeconds u)) + (r * unitSeconds u) := by
      ring
    omega
  rw [heq]
  set B := (dtSeconds t / (r * unitSeconds u) + 1) * (r * unitSeconds u)
  clear_value B
  simp only [usPerSec] at hdec hmic ⊢
  omega

/-- Witness for `round_up_time_aligned` at 00:00:17, unit=minute, round=1,
delay=5 (5 < 60). -/
theorem round_up_time_aligned_witness :
    17000000 < round_up_time 17000000 TimeUnit.minute 1 5 ∧
      round_up_time 17000000 TimeUnit.minute 1 5 =
        dtMidnight 17000000 +
          ((dtSeconds 17000000 / (1 * unitSeconds TimeUnit.minute) + 1)
              * (1 * unitSeconds TimeUnit.minute) + 5) * usPerSec :=
  round_up_time_aligned 17000000 TimeUnit.minute 1 5 (by decide) (by decide)

/-- C4: with a positive round and `delay >= window`, the delay is
disregarded: the result equals the computation with delay 0, which is the
aligned boundary exactly. -/
theorem round_up_time_delay_clamped (t : Nat) (u : TimeUnit) (r d : Nat)
    (hr : 1 ≤ r) (hd : r * unitSeconds u ≤ d) :
    round_up_time t u r d = round_up_time t u r 0 ∧
      round_up_time t u r d =
        dtMidnight t +
          ((dtSeconds t / (r * unitSeconds u) + 1) * (r * unitSeconds u)) * usPerSec := by
  have hw : 0 < r * unitSeconds u :=
    Nat.mul_pos (by omega) (unitSeconds_pos u)
  have heq := round_up_time_eq t u r d hr
  have heq0 := round_up_time_eq t u r 0 hr
  rw [if_neg (by omega)] at heq
  rw [if_pos hw] at heq0
  have hfl : (dtSeconds t + r * unitSeconds u) / (r * unitSeconds u)
      = dtSeconds t / (r * unitSeconds u) + 1 := Nat.add_div_right _ hw
  rw [hfl] at heq heq0
  constructor
  · rw [heq, heq0]
  · rw [heq]
    ring

/-- Witness for `round_up_time_delay_clamped` at 00:00:17, unit=minute,
round=1, delay=60 (60 >= 60). -/
theorem round_up_time_delay_clamped_witness :
    round_up_time 17000000 TimeUnit.minute 1 60 = round_up_time 17000000 TimeUnit.minute 1 0 ∧
      round_up_time 17000000 TimeUnit.minute 1 60 =
        dtMidnight 17000000 +
          ((dtSeconds 17000000 / (1 * unitSeconds TimeUnit.minute) + 1)
              * (1 * unitSeconds TimeUnit.minute)) * usPerSec :=
  round_up_time_delay_clamped 17000000 TimeUnit.minute 1 60 (by decide) (by decide)

/-- C5: for every datetime, unit, positive round and delay (clamped or
not), the computed next run is strictly after `now`; no input produces a
result equal to `now`. -/
theorem round_up_time_strictly_future (t : Nat) (u : TimeUnit) (r d : Nat) (hr : 1 ≤ r) :
    t < round_up_time t u r d := by
  have hw : 0 < r * unitSeconds u :=
    Nat.mul_pos (by omega) (unitSeconds_pos u)
  have heq := round_up_time_eq t u r d hr
  have hfl : (dtSeconds t + r * unitSeconds u) / (r * unitSeconds u)
      = dtSeconds t / (r * unitSeconds u) + 1 := Nat.add_div_right _ hw
  rw [hfl] at heq
  have hdec := dt_decomp t
  have hmic : dtMicrosecond t < usPerSec := Nat.mod_lt _ (by norm_num [usPerSec])
  have hsb : dtSeconds t + 1 ≤ (dtSeconds t / (r * unitSeconds u) + 1) * (r * unitSeconds u) := by
    have hdm := Nat.div_add_mod (dtSeconds t) (r * unitSeconds u)
    have hml : dtSeconds t % (r * unitSeconds u) < r * unitSeconds u := Nat.mod_lt _ hw
    have hexp : (dtSeconds t / (r * unitSeconds u) + 1) * (r * unitSeconds u)
        = (r * unitSeconds u) * (dtSeconds t / (r * unitSeconds u)) + (r * unitSeconds u) := by
      ring
    omega
  rw [heq]
  set B := (dtSeconds t / (r * unitSeconds u) + 1) * (r * unitSeconds u)
  set d2 := if d < r * unitSeconds u then d else 0
  clear_value B d2
  simp only [usPerSec] at hdec hmic ⊢
  omega

/-- Witness for `round_up_time_strictly_future` at 00:00:00.000000
(midnight exactly), unit=second, round=1, delay=0. -/
theorem round_up_time_strictly_future_witness :
    0 < round_up_time 0 TimeUnit.second 1 0 :=
  round_up_time_strictly_future 0 TimeUnit.second 1 0 (by decide)

/-- C6: the next-run computation is deterministic: identical frozen inputs
(datetime, unit, round, resolved integer delay) give identical results. -/
theorem round_up_time_deterministic (t t2 : Nat) (u u2 : TimeUnit) (r r2 d d2 : Nat)
    (ht : t = t2) (hu : u = u2) (hr : r = r2) (hd : d = d2) :
    round_up_time t u r d = round_up_time t2 u2 r2 d2 := by
  subst ht hu hr hd
  rfl

/-- Witness for `round_up_time_deterministic` at 00:00:17, unit=minute,
round=1, delay=0 on both sides. -/
theorem round_up_time_deterministic_witness :
    round_up_time 17000000 TimeUnit.minute 1 0 = round_up_time 17000000 TimeUnit.minute 1 0 :=
  round_up_time_deterministic 17000000 17000000 TimeUnit.minute TimeUnit.minute 1 1 0 0
    rfl rfl rfl rfl

/-- `Scheduler.__get_wait_time(unit, round, delay)` with the current time
frozen to `now` (the source reads `datetime.now()` twice, once as
`round_up_time`'s default and once for the subtraction; both reads are
modelled by the same frozen instant), and the delay already resolved by
`__process_delay`.  Returns `(next_run, (next_run - now).seconds)`: the
Python timedelta `.seconds` component of a non-negative difference is
`(diff / 10^6) % 86400`. -/
def get_wait_time (now : Nat) (unit : TimeUnit) (round delay : Nat) : Nat × Nat :=
  let next_run := round_up_time now unit round delay
  (next_run, (next_run - now) / usPerSec % secPerDay)

/-- C10: the wait returned by the wait-time computation is only the
seconds component of the timedelta `next_run - now`: it is always below
86400 and equals the true whole-second wait minus its whole-day portion;
concretely at 00:00:01.000000 with unit=day, round=2, delay=0 the true
wait is 172799 seconds (the next run lies two midnights ahead) but the
returned wait is only 86399. -/
theorem get_wait_time_seconds_component (now : Nat) (u : TimeUnit) (r d : Nat) :
    (get_wait_time now u r d).2 < 86400 ∧
      ((get_wait_time now u r d).1 - now) / usPerSec =
        86400 * (((get_wait_time now u r d).1 - now) / usPerSec / 86400)
          + (get_wait_time now u r d).2 ∧
      (get_wait_time usPerSec TimeUnit.day 2 0).1 = 172800 * usPerSec ∧
      ((get_wait_time usPerSec TimeUnit.day 2 0).1 - usPerSec) / usPerSec = 172799 ∧
      (get_wait_time usPerSec TimeUnit.day 2 0).2 = 86399 := by
  have h1 : (get_wait_time now u r d).1 = round_up_time now u r d := rfl
  have h2 : (get_wait_time now u r d).2 =
      (round_up_time now u r d - now) / usPerSec % secPerDay := rfl
  refine ⟨?_, ?_, by decide, by decide, by decide⟩
  · rw [h2]
    unfold secPerDay
    exact Nat.mod_lt _ (by norm_num)
  · rw [h1, h2]
    unfold secPerDay
    exact (Nat.div_add_mod _ 86400).symm

/-- The successive `(next_run, delay)` pairs computed by
`Scheduler.__periodic_callback` (lines 99-118): before the loop the pair
is `(datetime.now().replace(microsecond=0), 0)` when `run_now` is set and
the `__get_wait_time` result otherwise; `run_now` is then hard-reset to
False, and at the end of every loop iteration the pair is recomputed with
`__get_wait_time`.  `times n` is the clock reading when the n-th pair is
computed and `delays n` the per-period resolution of `periodic_delay`. -/
def periodic_target (runNow : Bool) (times : Nat → Nat) (unit : TimeUnit)
    (round : Nat) (delays : Nat → Nat) : Nat → Nat × Nat
  | 0 => if runNow then (truncMicros (times 0), 0)
         else get_wait_time (times 0) unit round (delays 0)
  | n + 1 => get_wait_time (times (n + 1)) unit round (delays (n + 1))

/-- C8: with the run-immediately flag set, only the first target is `now`
(truncated to the second) with zero wait; every later period's target and
wait come from the schedule-window computation and are never again taken
as immediate. -/
theorem periodic_run_now_first_only (runNow : Bool) (times : Nat → Nat)
    (u : TimeUnit) (r : Nat) (delays : Nat → Nat) :
    periodic_target true times u r delays 0 = (truncMicros (times 0), 0) ∧
      ∀ n, 1 ≤ n →
        periodic_target runNow times u r delays n =
          get_wait_time (times n) u r (delays n) := by
  constructor
  · rfl
  · intro n hn
    cases n with
    | zero => omega
    | succ k => rfl

/-- Witness for `periodic_run_now_first_only` at period index 1 with
constant clock 00:00:17 and zero delay. -/
theorem periodic_run_now_first_only_witness :
    periodic_target true (fun _ => 17000000) TimeUnit.minute 1 (fun _ => 0) 1 =
      get_wait_time 17000000 TimeUnit.minute 1 0 :=
  (periodic_run_now_first_only true (fun _ => 17000000) TimeUnit.minute 1 (fun _ => 0)).2
    1 (by decide)

/-- The coarse suspensions performed by `Scheduler.__async_hard_sleep`
(lines 208-218): while the remaining delay exceeds 3600 seconds it sleeps
3600 seconds, subtracts 3600, and logs a heartbeat. -/
def hardSleepChunks (delay : Nat) : List Nat :=
  if h : 3600 < delay then 3600 :: hardSleepChunks (delay - 3600) else []
termination_by delay
decreasing_by omega

/-- The remaining delay handed to `__async_sleep` once the chunking loop
of `__async_hard_sleep` exits. -/
def hardSleepFinal (delay : Nat) : Nat :=
  if h : 3600 < delay then hardSleepFinal (delay - 3600) else delay
termination_by delay
decreasing_by omega

/-- C9: the hard-wait chunking loop terminates for every finite
non-negative initial delay: every coarse suspension is exactly 3600
seconds (at most one hour), the finitely many chunks together with the
final remainder account for the whole delay (so the loop subtracts 3600
per iteration and runs finitely often), and the remainder handed to the
fine-grained wait is at most 3600 seconds. -/
theorem hard_sleep_terminates (delay : Nat) :
    hardSleepChunks delay = List.replicate (hardSleepChunks delay).length 3600 ∧
      3600 * (hardSleepChunks delay).length + hardSleepFinal delay = delay ∧
      hardSleepFinal delay ≤ 3600 := by
  induction delay using Nat.strong_induction_on with
  | _ d ih =>
    by_cases h : 3600 < d
    · have hc : hardSleepChunks d = 3600 :: hardSleepChunks (d - 3600) := by
        rw [hardSleepChunks]
        simp [h]
      have hf : hardSleepFinal d = hardSleepFinal (d - 3600) := by
        rw [hardSleepFinal]
        simp [h]
      obtain ⟨ih1, ih2, ih3⟩ := ih (d - 3600) (by omega)
      refine ⟨?_, ?_, ?_⟩
      · rw [hc]
        simp only [List.length_cons, List.replicate_succ]
        exact congrArg (List.cons 3600) ih1
      · rw [hc, hf, List.length_cons]
        omega
      · rw [hf]
        exact ih3
    · have hc : hardSleepChunks d = [] := by
        rw [hardSleepChunks]
        simp [h]
      have hf : hardSleepFinal d = d := by
        rw [hardSleepFinal]
        simp [h]
      rw [hc, hf]
      simp
      omega

/-- Destination of a log write: stdout or stderr. -/
inductive LogStream
  | out
  | err
deriving DecidableEq, Repr

/-- One formatted log line as written by `Scheduler.log` (the leading
wall-clock timestamp is omitted from the model). -/
def logLine (source type message : String) : String :=
  source ++ " - " ++ type ++ " - " ++ message

/-- `Scheduler.log(message, type, source)` (lines 232-241): DEBUG lines
are dropped unless the debug flag is set; INFO and DEBUG go to stdout,
anything else to stderr. -/
def schedLog (debug : Bool) (message type source : String) :
    List (LogStream × String) :=
  if type = "DEBUG" ∧ debug = false then []
  else [(if type = "INFO" ∨ type = "DEBUG" then LogStream.out else LogStream.err,
         logLine source type message)]

/-- Observable state of the concurrent future handed to the completion
callback: cancelled, finished with a raised exception, or completed. -/
inductive FutureState
  | cancelled
  | raised (msg : String)
  | completed
deriving DecidableEq, Repr

/-- Rendering of `traceback.format_exception` for a raised exception. -/
def formatTraceback (msg : String) : String :=
  "Traceback (most recent call last): " ++ msg

/-- `Scheduler.__handle_task_exception(task_id, future)` from
`scheduler.py` lines 294-313.  Returns the (unchanged) loop-level error
flag, the writes performed, and whether shutdown is initiated (the source
has no shutdown path in this handler, so that component is false on every
branch):

    if future and future.cancelled(): log debug; return
    if future and future.exception(): log error;
                                      if not debug: return;
                                      write traceback to stderr
    else: log debug ("task finished")
-/
def handle_task_exception (debug exceptionCaught : Bool) (taskId : String)
    (future : Option FutureState) : Bool × List (LogStream × String) × Bool :=
  match future with
  | some FutureState.cancelled =>
      (exceptionCaught,
        schedLog debug (taskId ++ " - task cancelled") "DEBUG" "TASK", false)
  | some (FutureState.raised msg) =>
      (exceptionCaught,
        schedLog debug (taskId ++ " - task raised an exception") "ERROR" "TASK"
          ++ (if debug then [(LogStream.err, formatTraceback msg)] else []),
        false)
  | _ =>
      (exceptionCaught,
        schedLog debug (taskId ++ " - task finished") "DEBUG" "TASK", false)

/-- C7: the task-level completion handler has exactly three outcomes — a
cancelled future yields only a DEBUG line (written only when the debug
flag is set); a future that raised always yields an ERROR line on stderr,
with the full traceback appended only when debug is set; a completed (or
absent) future yields only a DEBUG line written only when debug is set —
and in every outcome the loop-level error flag is returned unchanged and
shutdown is never initiated. -/
theorem handle_task_exception_isolated (debug exc : Bool) (tid msg : String)
    (fut : Option FutureState) :
    (handle_task_exception debug exc tid fut).1 = exc ∧
    (handle_task_exception debug exc tid fut).2.2 = false ∧
    (handle_task_exception debug exc tid (some FutureState.cancelled)).2.1 =
      (if debug then [(LogStream.out, logLine "TASK" "DEBUG" (tid ++ " - task cancelled"))]
       else []) ∧
    (handle_task_exception debug exc tid (some (FutureState.raised msg))).2.1 =
      (LogStream.err, logLine "TASK" "ERROR" (tid ++ " - task raised an exception"))
        :: (if debug then [(LogStream.err, formatTraceback msg)] else []) ∧
    (handle_task_exception debug exc tid (some FutureState.completed)).2.1 =
      (if debug then [(LogStream.out, logLine "TASK" "DEBUG" (tid ++ " - task finished"))]
       else []) ∧
    (handle_task_exception debug exc tid none).2.1 =
      (if debug then [(LogStream.out, logLine "TASK" "DEBUG" (tid ++ " - task finished"))]
       else []) := by
  cases debug <;>
    rcases fut with _ | (_ | m2 | _) <;>
      simp [handle_task_exception, schedLog]

/-- The POSIX signals the scheduler installs handlers for (line 54). -/
inductive PySignal
  | SIGHUP
  | SIGTERM
  | SIGINT
deriving DecidableEq, Repr

/-- The `Scheduler` attributes that decide the exit status.
`exception_caught` is the flag set by the loop-level handler
`__handle_exception` and read by `run_concurrent`; `exception_attr`
models the attribute literally named `exception` that `__shutdown`
assigns (`self.exception = True`) — a distinct attribute that no other
code reads. -/
structure SchedFlags where
  exception_caught : Bool
  exception_attr : Bool
deriving DecidableEq, Repr

/-- Attribute state after `__init__`: no error recorded. -/
def initFlags : SchedFlags := ⟨false, false⟩

/-- The flag update performed by `Scheduler.__shutdown` (lines 249-252):
for any signal other than SIGINT it executes `self.exception = True`
(comment: "Only SIGINT can return 0"); `exception_caught` is not
touched. -/
def shutdown_flags (st : SchedFlags) (sig : Option PySignal) : SchedFlags :=
  match sig with
  | some s => if s ≠ PySignal.SIGINT then { st with exception_attr := true } else st
  | none => st

/-- The flag update performed by the loop-level handler
`Scheduler.__handle_exception` (line 290): `self.exception_caught = True`. -/
def handle_exception_flags (st : SchedFlags) : SchedFlags :=
  { st with exception_caught := true }

/-- The exit decision of `Scheduler.run_concurrent` (lines 327-343):
`escaped` is the `str()` of the exception caught by the outer
`except Exception` around `run_until_complete`, if any escaped; the
process exit status is 1 only when an exception escaped and
`exception_caught` is set or the message is non-empty, else the function
returns normally and the process exits 0. -/
def run_concurrent_exit (st : SchedFlags) (escaped : Option String) : Nat :=
  match escaped with
  | none => 0
  | some msg => if st.exception_caught = true ∨ msg ≠ "" then 1 else 0

/-- C1: the claim (and the shutdown comment "Only SIGINT can return 0")
says a terminate signal forces exit status 1 even with no task errors; but
`__shutdown` assigns `self.exception`, not `self.exception_caught`, so
after a SIGTERM-driven shutdown with no loop-level error the flag read by
`run_concurrent` is still false and the run exits with status 0 — both
when the gathered tasks finish after cancellation with no escaping
exception and when a CancelledError (whose `str()` is empty) escapes.  A
genuine loop-fatal error, by contrast, still exits 1. -/
theorem sigterm_exits_zero :
    (shutdown_flags initFlags (some PySignal.SIGTERM)).exception_attr = true ∧
    (shutdown_flags initFlags (some PySignal.SIGTERM)).exception_caught = false ∧
    run_concurrent_exit (shutdown_flags initFlags (some PySignal.SIGTERM)) none = 0 ∧
    run_concurrent_exit (shutdown_flags initFlags (some PySignal.SIGTERM)) (some "") = 0 ∧
    run_concurrent_exit (handle_exception_flags initFlags) (some "") = 1 := by
  decide
